import Mathlib

/-!
Shallow embedding of `pydataparc/historian.py` (a client library for a plant
historian database) and proofs about its claimed properties.

Modelling conventions:
* Python `datetime` values (naive) are `NaiveDT` records; comparison of naive
  datetimes is the lexicographic order on their components, exactly as in
  CPython.  `pytz`-localized datetimes are `AwareDT`: the naive value together
  with the attached time-zone name (`tzinfo.localize` attaches the zone; DST
  normalization details are irrelevant to the properties proved here).
* Database interaction is modelled by an event trace: each operation returns
  the list of I/O events it performs (`connect`, `query`) together with its
  result.  The rows a query would produce are supplied as an input (they are
  the rows surviving the query-level `shistorianquality != NoBound` filter,
  with the raw `tagname` column; the `REPLACE(tagname, //, /)` of the SELECT
  clause is modelled by `collapseSlashes` applied during row mapping).
* Python exceptions are the `HError` type: `keyError k` models
  `os.environ[k]` raising `KeyError(k)`, and `valueError msg` models
  `raise ValueError(msg)`.
* Python dicts are insertion-ordered association lists.
* `float` values are never computed with, only carried through row mapping,
  so they are represented by `Rat` (any carrier type would do).
-/

/-- A naive Python `datetime`: no tzinfo attached.  Fields are integers
(CPython bounds them, but no property here depends on the bounds). -/
structure NaiveDT where
  year : Int
  month : Int
  day : Int
  hour : Int
  minute : Int
  second : Int
  microsecond : Int
deriving DecidableEq, Repr

/-- The component tuple CPython compares when ordering naive datetimes. -/
def NaiveDT.key (d : NaiveDT) : List Int :=
  [d.year, d.month, d.day, d.hour, d.minute, d.second, d.microsecond]

/-- Lexicographic `≤` on equal-length integer lists (tuple comparison). -/
def lexLeInt : List Int → List Int → Bool
  | [], _ => true
  | _ :: _, [] => false
  | x :: xs, y :: ys => if x < y then true else if y < x then false else lexLeInt xs ys

/-- `a <= b` for naive datetimes, as CPython evaluates it. -/
def NaiveDT.le (a b : NaiveDT) : Bool :=
  lexLeInt a.key b.key

/-- `d.replace(microsecond=m)` on a naive datetime. -/
def NaiveDT.replaceMicrosecond (d : NaiveDT) (m : Int) : NaiveDT :=
  { d with microsecond := m }

/-- A `pytz`-localized datetime: the naive components plus the zone name. -/
structure AwareDT where
  naive : NaiveDT
  tz : String
deriving DecidableEq, Repr

/-- `tzinfo.localize(d)`: attach the zone to a naive datetime
(historian.py always calls it on `self.timezone`). -/
def localize (tz : String) (d : NaiveDT) : AwareDT :=
  ⟨d, tz⟩

/-- `TagReading` dataclass (historian.py lines 20-24). -/
structure TagReading where
  value : Rat
  timestamp : AwareDT
  quality : Int
deriving DecidableEq, Repr

/-- `TagReading.quality_str` (historian.py lines 26-36). -/
def TagReading.quality_str (r : TagReading) : String :=
  if r.quality = 192 then "Good"
  else if r.quality = 0 then "Bad"
  else "Unknown"

/-- One char step of Python `s.replace(/, //)`: a single-character pattern
scan doubles every slash (historian.py lines 79, 105, 131, 158, 190). -/
def escL : List Char → List Char
  | [] => []
  | c :: rest => if c = '/' then '/' :: '/' :: escL rest else c :: escL rest

/-- One step of the SQL `REPLACE(tagname, //, /)` in every SELECT clause:
a left-to-right non-overlapping scan collapsing each `//` to `/`. -/
def colL : List Char → List Char
  | [] => []
  | [c] => [c]
  | c :: c2 :: rest2 =>
    if c = '/' ∧ c2 = '/' then '/' :: colL rest2 else c :: colL (c2 :: rest2)

/-- Request-side escaping: `tag_id.replace(/, //)`. -/
def escapeSlashes (s : String) : String :=
  ⟨escL s.data⟩

/-- Response-side collapsing: `REPLACE(tagname, //, /)` computed by the
database on the returned identifier column. -/
def collapseSlashes (s : String) : String :=
  ⟨colL s.data⟩

/-- A raw result row of the historian table-valued functions, before the
SELECT clause renames/collapses: raw `tagname`, naive `Timestamp`, `value`,
`quality`.  (Rows failing `shistorianquality != NoBound` are already
excluded by the WHERE clause and never reach the client.) -/
structure Row where
  tagname : String
  timestamp : NaiveDT
  value : Rat
  quality : Int
deriving DecidableEq, Repr

/-- Row-to-reading mapping used by the raw-read operations:
`TagReading(r[Value], self.timezone.localize(r[Timestamp]), r[Quality])`. -/
def mkReading (tz : String) (r : Row) : TagReading :=
  { value := r.value, timestamp := localize tz r.timestamp, quality := r.quality }

/-- Row-to-reading mapping of `get_tags_readings_interpolated`:
the timestamp is truncated with `.replace(microsecond=0)` before
localization (historian.py lines 205, 207). -/
def mkReadingTruncated (tz : String) (r : Row) : TagReading :=
  { value := r.value,
    timestamp := localize tz (r.timestamp.replaceMicrosecond 0),
    quality := r.quality }

/-- Python exceptions the client raises itself. -/
inductive HError where
  /-- `os.environ[k]` raising `KeyError(k)` (the spec taxonomy calls this
  condition `ConfigurationError`). -/
  | keyError (key : String)
  /-- `raise ValueError(msg)` (the spec taxonomy calls the range condition
  `InvalidRangeError`). -/
  | valueError (msg : String)
deriving DecidableEq, Repr

/-- A time parameter of a historian query. -/
inductive TimeParam where
  /-- SQL `CURRENT_TIMESTAMP`. -/
  | currentTimestamp
  /-- An explicit localized datetime parameter. -/
  | atTime (d : AwareDT)
deriving DecidableEq, Repr

/-- The parameterized query an operation executes (SQL text abstracted to
the table-valued function and its parameter tuple). -/
inductive Query where
  /-- `Ctc_fn_parcdata_readrawtags(ids, start, end, flag, sep)`. -/
  | readRawTags (ids : String) (startP endP : TimeParam) (flag : Int) (sep : String)
  /-- `Ctc_fn_parcdata_readinterpolatedtags(ids, start, end, aggregate, step, sep)`. -/
  | readInterpolatedTags (ids : String) (startP endP : TimeParam)
      (aggregate : String) (stepSize : Int) (sep : String)
deriving DecidableEq, Repr

/-- An I/O event of one client operation. -/
inductive Event where
  /-- `pymssql.connect(server, user, password, database)`. -/
  | connect (server user password database : String)
  /-- `cursor.execute(...)` of one parameterized query. -/
  | query (q : Query)
deriving DecidableEq, Repr

/-- The `Historian` client object after construction: the fields
`__init__` assigns (historian.py lines 46-53); the pytz zone is kept as
its name. -/
structure Historian where
  server : String
  user : String
  password : String
  database : String
  abbreviation : String
  timezone : String
deriving DecidableEq, Repr

/-- `os.environ[k]`: the value when present, `KeyError(k)` otherwise. -/
def environFetch (env : String → Option String) (k : String) : Except HError String :=
  match env k with
  | some v => Except.ok v
  | none => Except.error (HError.keyError k)

/-- `x if x is not None else os.environ[k]` — the resolution pattern of
each required constructor field. -/
def resolveReq (explicit : Option String) (env : String → Option String)
    (k : String) : Except HError String :=
  match explicit with
  | some s => Except.ok s
  | none => environFetch env k

/-- `Historian.__init__` (historian.py lines 46-53); `env` is the ambient
`os.environ`.  Fields resolve in source order: server, user, password,
database (plain parameter), abbreviation, then timezone (explicit, else
env `DATAPARC_TIMEZONE`, else UTC; pytz zone-name validation is not
modelled, no proved property touches it). -/
def Historian.init (site_abbreviation server user password timezone : Option String)
    (database : String) (env : String → Option String) : Except HError Historian :=
  match resolveReq server env "DATAPARC_SERVER" with
  | Except.error e => Except.error e
  | Except.ok serverV =>
    match resolveReq user env "DATAPARC_USERNAME" with
    | Except.error e => Except.error e
    | Except.ok userV =>
      match resolveReq password env "DATAPARC_PASSWORD" with
      | Except.error e => Except.error e
      | Except.ok passwordV =>
        match resolveReq site_abbreviation env "DATAPARC_SITE_ABBREVIATION" with
        | Except.error e => Except.error e
        | Except.ok abbreviationV =>
          Except.ok
            { server := serverV, user := userV, password := passwordV,
              database := database, abbreviation := abbreviationV,
              timezone :=
                match timezone with
                | some s => s
                | none => (env "DATAPARC_TIMEZONE").getD "UTC" }

/-- `ids = [s.replace(/, //) for s in tag_ids] if escape else tag_ids`. -/
def escapedIds (esc : Bool) (ids : List String) : List String :=
  if esc then ids.map escapeSlashes else ids

/-- `result[k] = [v]` when `k` is new, `result[k].append(v)` otherwise —
the dict-building step of the batched ranged reads, on an
insertion-ordered dict. -/
def insertReading (m : List (String × List TagReading)) (k : String)
    (v : TagReading) : List (String × List TagReading) :=
  match m with
  | [] => [(k, [v])]
  | (k2, vs) :: rest =>
    if k2 = k then (k2, vs ++ [v]) :: rest else (k2, vs) :: insertReading rest k v

/-- `d[k] = v` on a Python dict: overwrite in place when present, append
otherwise — the dict-comprehension step of `get_current_tags_readings`. -/
def dictInsert (m : List (String × TagReading)) (k : String)
    (v : TagReading) : List (String × TagReading) :=
  match m with
  | [] => [(k, v)]
  | (k2, v2) :: rest =>
    if k2 = k then (k2, v) :: rest else (k2, v2) :: dictInsert rest k v

/-- `get_current_tag_reading` (historian.py lines 71-95): escape the id,
connect, run the raw-read query at `CURRENT_TIMESTAMP`, then return `None`
on zero rows and a reading mapped from `results[-1]` otherwise. -/
def Historian.get_current_tag_reading (h : Historian) (tag_id : String)
    (escape_slashes : Bool) (rows : List Row) :
    List Event × Except HError (Option TagReading) :=
  let tid := if escape_slashes then escapeSlashes tag_id else tag_id
  ([Event.connect h.server h.user h.password h.database,
    Event.query (Query.readRawTags tid TimeParam.currentTimestamp
      TimeParam.currentTimestamp 1 ";")],
   Except.ok
     (match rows.getLast? with
      | none => none
      | some r => some (mkReading h.timezone r)))

/-- `get_current_tags_readings` (historian.py lines 97-115): escape each id,
join with `;`, connect, query, and build the dict comprehension
`(r[Id]) : TagReading(...)` over the cursor rows. -/
def Historian.get_current_tags_readings (h : Historian) (tag_ids : List String)
    (escape_slash : Bool) (rows : List Row) :
    List Event × Except HError (List (String × TagReading)) :=
  let tids := escapedIds escape_slash tag_ids
  ([Event.connect h.server h.user h.password h.database,
    Event.query (Query.readRawTags (String.intercalate ";" tids)
      TimeParam.currentTimestamp TimeParam.currentTimestamp 1 ";")],
   Except.ok
     (rows.foldl
       (fun m r => dictInsert m (collapseSlashes r.tagname) (mkReading h.timezone r))
       []))

/-- `get_tag_readings` (historian.py lines 117-144): raise
`ValueError` when `not start_time <= end_time`, before opening any
connection; otherwise escape the id, connect, query with both bounds
localized, and map every row in order. -/
def Historian.get_tag_readings (h : Historian) (tag_id : String)
    (start_time end_time : NaiveDT) (escape_slashes : Bool) (rows : List Row) :
    List Event × Except HError (List TagReading) :=
  if !NaiveDT.le start_time end_time then
    ([], Except.error (HError.valueError "A valid time range is required."))
  else
    let tid := if escape_slashes then escapeSlashes tag_id else tag_id
    ([Event.connect h.server h.user h.password h.database,
      Event.query (Query.readRawTags tid
        (TimeParam.atTime (localize h.timezone start_time))
        (TimeParam.atTime (localize h.timezone end_time)) 1 ";")],
     Except.ok (rows.map (mkReading h.timezone)))

/-- `get_tags_readings` (historian.py lines 146-176): no range check;
escape ids, join with `;`, connect, query with localized bounds, then
group rows into an insertion-ordered dict, appending each row's reading
to its (collapsed) identifier's list. -/
def Historian.get_tags_readings (h : Historian) (tag_ids : List String)
    (start_time end_time : NaiveDT) (escape_slash : Bool) (rows : List Row) :
    List Event × Except HError (List (String × List TagReading)) :=
  let tids := escapedIds escape_slash tag_ids
  ([Event.connect h.server h.user h.password h.database,
    Event.query (Query.readRawTags (String.intercalate ";" tids)
      (TimeParam.atTime (localize h.timezone start_time))
      (TimeParam.atTime (localize h.timezone end_time)) 1 ";")],
   Except.ok
     (rows.foldl
       (fun m r => insertReading m (collapseSlashes r.tagname) (mkReading h.timezone r))
       []))

/-- `get_tags_readings_interpolated` (historian.py lines 178-208): like
`get_tags_readings` but against the interpolated table-valued function
with `aggregate` and `step_size`, truncating each row timestamp's
microseconds to zero.  The `remove_microseconds` parameter is accepted
and never read, exactly as in the source. -/
def Historian.get_tags_readings_interpolated (h : Historian) (tag_ids : List String)
    (start_time end_time : NaiveDT) (step_size : Int) (aggregate : String)
    (escape_slash : Bool) (remove_microseconds : Bool) (rows : List Row) :
    List Event × Except HError (List (String × List TagReading)) :=
  let tids := escapedIds escape_slash tag_ids
  ([Event.connect h.server h.user h.password h.database,
    Event.query (Query.readInterpolatedTags (String.intercalate ";" tids)
      (TimeParam.atTime (localize h.timezone start_time))
      (TimeParam.atTime (localize h.timezone end_time)) aggregate step_size ";")],
   Except.ok
     (rows.foldl
       (fun m r => insertReading m (collapseSlashes r.tagname) (mkReadingTruncated h.timezone r))
       []))

/-- Lookup in an insertion-ordered dict (first matching key). -/
def alistFind {α : Type} (m : List (String × α)) (k : String) : Option α :=
  match m with
  | [] => none
  | (k2, v) :: rest => if k2 = k then some v else alistFind rest k

/-- Merge the readings contributed by a run of rows into what a dict slot
already holds: nothing plus nothing is still nothing (the key stays
absent), otherwise the contributions are appended in arrival order. -/
def combineOpt (o : Option (List TagReading)) (l : List TagReading) :
    Option (List TagReading) :=
  match o, l with
  | none, [] => none
  | none, l => some l
  | some vs, l => some (vs ++ l)

/-- A concrete naive datetime (Jan 1 2020). -/
def dt1 : NaiveDT := ⟨2020, 1, 1, 0, 0, 0, 0⟩

/-- A concrete naive datetime (Jan 2 2020). -/
def dt2 : NaiveDT := ⟨2020, 1, 2, 0, 0, 0, 0⟩

/-- A concrete client configuration. -/
def sampleHistorian : Historian :=
  { server := "srv", user := "usr", password := "pwd", database := "ctc_config",
    abbreviation := "AB", timezone := "UTC" }

/-- A concrete result row with a nonzero microsecond component. -/
def sampleRow : Row :=
  { tagname := "a//b", timestamp := ⟨2020, 1, 1, 12, 30, 0, 123⟩,
    value := 1, quality := 192 }

/-- The four required configuration fields of `Historian.__init__`. -/
inductive ReqField where
  | server
  | user
  | password
  | abbreviation
deriving DecidableEq, Repr

/-- The environment variable each required field falls back to. -/
def ReqField.envKey : ReqField → String
  | ReqField.server => "DATAPARC_SERVER"
  | ReqField.user => "DATAPARC_USERNAME"
  | ReqField.password => "DATAPARC_PASSWORD"
  | ReqField.abbreviation => "DATAPARC_SITE_ABBREVIATION"

/-- The explicit constructor argument of each required field, given the
constructor arguments in source order. -/
def ReqField.arg (f : ReqField) (site_abbreviation server user password : Option String) :
    Option String :=
  match f with
  | ReqField.server => server
  | ReqField.user => user
  | ReqField.password => password
  | ReqField.abbreviation => site_abbreviation

theorem colL_cons_ne (c : Char) (t : List Char) (h : c ≠ '/') :
    colL (c :: t) = c :: colL t := by
  cases t with
  | nil => simp [colL]
  | cons c2 r => simp [colL, h]

theorem colL_slash_slash (t : List Char) : colL ('/' :: '/' :: t) = '/' :: colL t := by
  simp [colL]

theorem colL_escL (s : List Char) : colL (escL s) = s := by
  induction s with
  | nil => simp [escL, colL]
  | cons c rest ih =>
    by_cases hc : c = '/'
    · subst hc
      rw [show escL ('/' :: rest) = '/' :: '/' :: escL rest by simp [escL],
        colL_slash_slash, ih]
    · rw [show escL (c :: rest) = c :: escL rest by simp [escL, hc],
        colL_cons_ne c _ hc, ih]

/-- C4: for every tag identifier with no pre-existing `//` substring,
collapsing every `//` to `/` after doubling every `/` to `//` yields the
original identifier.  (The hypothesis is the claim's own restriction;
the round trip in fact needs no such restriction.) -/
theorem C4_escape_roundtrip (id : String)
    (h : ¬ (['/', '/'] <:+: id.data)) :
    collapseSlashes (escapeSlashes id) = id := by
  unfold collapseSlashes escapeSlashes
  cases id with
  | mk data => simp [colL_escL]

theorem C4_escape_roundtrip_witness :
    ¬ (['/', '/'] <:+: ("a/b").data) ∧
      collapseSlashes (escapeSlashes "a/b") = "a/b" :=
  ⟨by decide, C4_escape_roundtrip "a/b" (by decide)⟩

/-- C3: the quality classification of a reading is Good exactly when the
quality code is 192, Bad exactly when it is 0, and Unknown for every
other integer (negative values and 191 and 193 included). -/
theorem C3_quality_classification (r : TagReading) :
    (r.quality_str = "Good" ↔ r.quality = 192)
    ∧ (r.quality_str = "Bad" ↔ r.quality = 0)
    ∧ (r.quality_str = "Unknown" ↔ (r.quality ≠ 192 ∧ r.quality ≠ 0)) := by
  unfold TagReading.quality_str
  split_ifs with h1 h2 <;> simp_all

/-- C5: `get_current_tag_reading` never raises during row mapping: it
returns `None` exactly when the query yields zero rows, and otherwise a
reading built from the last row in returned order. -/
theorem C5_current_reading_last_row (h : Historian) (tag_id : String)
    (esc : Bool) (rows : List Row) :
    (h.get_current_tag_reading tag_id esc rows).2 =
      Except.ok (rows.getLast?.map (mkReading h.timezone)) := by
  unfold Historian.get_current_tag_reading
  cases hr : rows.getLast? <;> simp [hr]

/-- C1: when `start_time > end_time` (naive datetimes are totally
ordered, so this is `¬ start_time ≤ end_time`, the condition the code
tests), `get_tag_readings` raises the invalid-range error with an empty
event trace: no connection is attempted and no query is issued, for
every tag id. -/
theorem C1_invalid_range_no_connect (h : Historian) (tag_id : String)
    (start_time end_time : NaiveDT) (esc : Bool) (rows : List Row)
    (hgt : NaiveDT.le start_time end_time = false) :
    h.get_tag_readings tag_id start_time end_time esc rows =
      ([], Except.error (HError.valueError "A valid time range is required.")) := by
  unfold Historian.get_tag_readings
  simp [hgt]

theorem C1_invalid_range_no_connect_witness :
    NaiveDT.le dt2 dt1 = false ∧
      sampleHistorian.get_tag_readings "t" dt2 dt1 true [sampleRow] =
        ([], Except.error (HError.valueError "A valid time range is required.")) :=
  ⟨by decide,
    C1_invalid_range_no_connect sampleHistorian "t" dt2 dt1 true [sampleRow] (by decide)⟩

/-- C10: `get_tags_readings_interpolated` ignores its
`remove_microseconds` parameter: for all other inputs held fixed, the
entire observable behavior (event trace and result) is identical whether
it is passed `true` or `false`; truncation happens unconditionally. -/
theorem C10_remove_microseconds_unused (h : Historian) (tag_ids : List String)
    (start_time end_time : NaiveDT) (step_size : Int) (aggregate : String)
    (esc : Bool) (rows : List Row) (b1 b2 : Bool) :
    h.get_tags_readings_interpolated tag_ids start_time end_time step_size
        aggregate esc b1 rows =
      h.get_tags_readings_interpolated tag_ids start_time end_time step_size
        aggregate esc b2 rows := rfl

theorem resolveReq_missing (x : Option String) (env : String → Option String)
    (k : String) (hx : x = none) (hk : env k = none) :
    resolveReq x env k = Except.error (HError.keyError k) := by
  simp [resolveReq, environFetch, hx, hk]

theorem resolveReq_ok_exists (x : Option String) (env : String → Option String)
    (k : String) (h : ¬(x = none ∧ env k = none)) :
    ∃ s, resolveReq x env k = Except.ok s := by
  cases hx : x with
  | some s => exact ⟨s, rfl⟩
  | none =>
    cases hk : env k with
    | some v => exact ⟨v, by simp [resolveReq, environFetch, hk]⟩
    | none => exact absurd ⟨hx, hk⟩ h

/-- C2: for each required field (server, user, password, site
abbreviation), if its explicit constructor argument is absent and its
environment variable is unset, construction fails with a `KeyError`
(the spec's `ConfigurationError`) whose key names a field that is
missing from both sources. -/
theorem C2_missing_config (f : ReqField) (sa sv uv pv tz : Option String)
    (db : String) (env : String → Option String)
    (ha : ReqField.arg f sa sv uv pv = none)
    (he : env (ReqField.envKey f) = none) :
    ∃ g : ReqField,
      Historian.init sa sv uv pv tz db env =
          Except.error (HError.keyError (ReqField.envKey g))
        ∧ ReqField.arg g sa sv uv pv = none
        ∧ env (ReqField.envKey g) = none := by
  cases f with
  | server =>
    refine ⟨ReqField.server, ?_, ha, he⟩
    have h1 := resolveReq_missing sv env "DATAPARC_SERVER" ha he
    simp [Historian.init, h1, ReqField.envKey]
  | user =>
    by_cases hs : sv = none ∧ env "DATAPARC_SERVER" = none
    · refine ⟨ReqField.server, ?_, hs.1, hs.2⟩
      have h1 := resolveReq_missing sv env "DATAPARC_SERVER" hs.1 hs.2
      simp [Historian.init, h1, ReqField.envKey]
    · obtain ⟨s1, hs1⟩ := resolveReq_ok_exists sv env "DATAPARC_SERVER" hs
      refine ⟨ReqField.user, ?_, ha, he⟩
      have h2 := resolveReq_missing uv env "DATAPARC_USERNAME" ha he
      simp [Historian.init, hs1, h2, ReqField.envKey]
  | password =>
    by_cases hs : sv = none ∧ env "DATAPARC_SERVER" = none
    · refine ⟨ReqField.server, ?_, hs.1, hs.2⟩
      have h1 := resolveReq_missing sv env "DATAPARC_SERVER" hs.1 hs.2
      simp [Historian.init, h1, ReqField.envKey]
    · obtain ⟨s1, hs1⟩ := resolveReq_ok_exists sv env "DATAPARC_SERVER" hs
      by_cases hu : uv = none ∧ env "DATAPARC_USERNAME" = none
      · refine ⟨ReqField.user, ?_, hu.1, hu.2⟩
        have h2 := resolveReq_missing uv env "DATAPARC_USERNAME" hu.1 hu.2
        simp [Historian.init, hs1, h2, ReqField.envKey]
      · obtain ⟨s2, hs2⟩ := resolveReq_ok_exists uv env "DATAPARC_USERNAME" hu
        refine ⟨ReqField.password, ?_, ha, he⟩
        have h3 := resolveReq_missing pv env "DATAPARC_PASSWORD" ha he
        simp [Historian.init, hs1, hs2, h3, ReqField.envKey]
  | abbreviation =>
    by_cases hs : sv = none ∧ env "DATAPARC_SERVER" = none
    · refine ⟨ReqField.server, ?_, hs.1, hs.2⟩
      have h1 := resolveReq_missing sv env "DATAPARC_SERVER" hs.1 hs.2
      simp [Historian.init, h1, ReqField.envKey]
    · obtain ⟨s1, hs1⟩ := resolveReq_ok_exists sv env "DATAPARC_SERVER" hs
      by_cases hu : uv = none ∧ env "DATAPARC_USERNAME" = none
      · refine ⟨ReqField.user, ?_, hu.1, hu.2⟩
        have h2 := resolveReq_missing uv env "DATAPARC_USERNAME" hu.1 hu.2
        simp [Historian.init, hs1, h2, ReqField.envKey]
      · obtain ⟨s2, hs2⟩ := resolveReq_ok_exists uv env "DATAPARC_USERNAME" hu
        by_cases hp : pv = none ∧ env "DATAPARC_PASSWORD" = none
        · refine ⟨ReqField.password, ?_, hp.1, hp.2⟩
          have h3 := resolveReq_missing pv env "DATAPARC_PASSWORD" hp.1 hp.2
          simp [Historian.init, hs1, hs2, h3, ReqField.envKey]
        · obtain ⟨s3, hs3⟩ := resolveReq_ok_exists pv env "DATAPARC_PASSWORD" hp
          refine ⟨ReqField.abbreviation, ?_, ha, he⟩
          have h4 := resolveReq_missing sa env "DATAPARC_SITE_ABBREVIATION" ha he
          simp [Historian.init, hs1, hs2, hs3, h4, ReqField.envKey]

theorem C2_missing_config_witness :
    ∃ g : ReqField,
      Historian.init none none none none none "ctc_config" (fun _ => none) =
          Except.error (HError.keyError (ReqField.envKey g))
        ∧ ReqField.arg g none none none none = none
        ∧ (fun _ : String => (none : Option String)) (ReqField.envKey g) = none :=
  C2_missing_config ReqField.server none none none none none "ctc_config"
    (fun _ => none) rfl rfl

/-- C9: with an inverted range (`start_time > end_time`), the batched
ranged operations perform no validation: each connects, issues its query
with the inverted (localized) bounds, and returns a non-error result. -/
theorem C9_batched_no_range_check (h : Historian) (tag_ids : List String)
    (start_time end_time : NaiveDT) (esc b : Bool) (step_size : Int)
    (aggregate : String) (rows : List Row)
    (hgt : NaiveDT.le start_time end_time = false) :
    (Event.connect h.server h.user h.password h.database
        ∈ (h.get_tags_readings tag_ids start_time end_time esc rows).1
      ∧ Event.query (Query.readRawTags (String.intercalate ";" (escapedIds esc tag_ids))
            (TimeParam.atTime (localize h.timezone start_time))
            (TimeParam.atTime (localize h.timezone end_time)) 1 ";")
          ∈ (h.get_tags_readings tag_ids start_time end_time esc rows).1
      ∧ ∃ m, (h.get_tags_readings tag_ids start_time end_time esc rows).2 = Except.ok m)
    ∧ (Event.connect h.server h.user h.password h.database
        ∈ (h.get_tags_readings_interpolated tag_ids start_time end_time step_size
            aggregate esc b rows).1
      ∧ Event.query (Query.readInterpolatedTags
            (String.intercalate ";" (escapedIds esc tag_ids))
            (TimeParam.atTime (localize h.timezone start_time))
            (TimeParam.atTime (localize h.timezone end_time)) aggregate step_size ";")
          ∈ (h.get_tags_readings_interpolated tag_ids start_time end_time step_size
              aggregate esc b rows).1
      ∧ ∃ m, (h.get_tags_readings_interpolated tag_ids start_time end_time step_size
          aggregate esc b rows).2 = Except.ok m) := by
  unfold Historian.get_tags_readings Historian.get_tags_readings_interpolated
  simp

theorem C9_batched_no_range_check_witness :
    NaiveDT.le dt2 dt1 = false ∧
      (Event.connect "srv" "usr" "pwd" "ctc_config"
          ∈ (sampleHistorian.get_tags_readings ["a/b"] dt2 dt1 true [sampleRow]).1
        ∧ ∃ m, (sampleHistorian.get_tags_readings_interpolated ["a/b"] dt2 dt1 60
            "AVERAGE" true true [sampleRow]).2 = Except.ok m) :=
  ⟨by decide,
    (C9_batched_no_range_check sampleHistorian ["a/b"] dt2 dt1 true true 60
        "AVERAGE" [sampleRow] (by decide)).1.1,
    (C9_batched_no_range_check sampleHistorian ["a/b"] dt2 dt1 true true 60
        "AVERAGE" [sampleRow] (by decide)).2.2.2⟩

theorem alistFind_isSome {α : Type} (m : List (String × α)) (k : String) :
    (alistFind m k).isSome = true ↔ k ∈ m.map Prod.fst := by
  induction m with
  | nil => simp [alistFind]
  | cons p rest ih =>
    obtain ⟨k2, v⟩ := p
    by_cases hk : k2 = k
    · subst hk; simp [alistFind]
    · simp [alistFind, hk, ih, Ne.symm hk]

theorem alistFind_insertReading (m : List (String × List TagReading))
    (k k2 : String) (v : TagReading) :
    alistFind (insertReading m k v) k2 =
      if k = k2 then some ((alistFind m k2).getD [] ++ [v])
      else alistFind m k2 := by
  induction m with
  | nil => by_cases h : k = k2 <;> simp [insertReading, alistFind, h]
  | cons p rest ih =>
    obtain ⟨k1, vs⟩ := p
    by_cases h1 : k1 = k
    · subst h1
      by_cases h2 : k1 = k2
      · subst h2; simp [insertReading, alistFind]
      · simp [insertReading, alistFind, h2]
    · by_cases h2 : k1 = k2
      · subst h2
        simp [insertReading, alistFind, h1, Ne.symm h1]
      · simp [insertReading, alistFind, h1, h2, ih]

theorem combineOpt_nil (o : Option (List TagReading)) : combineOpt o [] = o := by
  cases o <;> simp [combineOpt]

theorem combineOpt_none_isSome (l : List TagReading) :
    (combineOpt none l).isSome = true ↔ l ≠ [] := by
  cases l <;> simp [combineOpt]

theorem alistFind_foldl_insert (f : Row → String) (g : Row → TagReading)
    (rows : List Row) (m0 : List (String × List TagReading)) (k : String) :
    alistFind (rows.foldl (fun m r => insertReading m (f r) (g r)) m0) k =
      combineOpt (alistFind m0 k) ((rows.filter (fun r => f r == k)).map g) := by
  induction rows generalizing m0 with
  | nil => simp [combineOpt_nil]
  | cons r rest ih =>
    rw [List.foldl_cons, ih]
    by_cases hf : f r = k
    · rw [alistFind_insertReading]
      simp only [hf, if_pos rfl, List.filter_cons, beq_self_eq_true, if_pos trivial]
      cases ho : alistFind m0 k <;>
        simp [combineOpt, ho]
    · rw [alistFind_insertReading]
      simp [hf, List.filter_cons]

/-- C7: the batched raw read groups rows by (collapsed) returned
identifier: a key is present in the result dict exactly when some row
bears it, and the list under a key holds exactly the readings of that
key's rows, in arrival order (`combineOpt none` of the mapped filtered
rows: absent when no row matches, their ordered readings otherwise). -/
theorem C7_grouping (h : Historian) (tag_ids : List String)
    (start_time end_time : NaiveDT) (esc : Bool) (rows : List Row) (k : String) :
    ∃ m, (h.get_tags_readings tag_ids start_time end_time esc rows).2 = Except.ok m
      ∧ (k ∈ m.map Prod.fst ↔ ∃ row ∈ rows, collapseSlashes row.tagname = k)
      ∧ alistFind m k =
          combineOpt none
            ((rows.filter (fun row => collapseSlashes row.tagname == k)).map
              (mkReading h.timezone)) := by
  have key := alistFind_foldl_insert (fun r => collapseSlashes r.tagname)
    (mkReading h.timezone) rows [] k
  rw [show alistFind ([] : List (String × List TagReading)) k = none from rfl] at key
  refine ⟨_, rfl, ?_, key⟩
  rw [← alistFind_isSome, key, combineOpt_none_isSome]
  simp [List.map_eq_nil_iff, List.filter_eq_nil_iff]

theorem insertReading_pred (P : TagReading → Prop) (k : String) (v : TagReading)
    (hv : P v) :
    ∀ (m : List (String × List TagReading)),
      (∀ k2 l, (k2, l) ∈ m → ∀ x ∈ l, P x) →
      ∀ k2 l, (k2, l) ∈ insertReading m k v → ∀ x ∈ l, P x := by
  intro m
  induction m with
  | nil =>
    intro _ k2 l hl x hx
    simp [insertReading] at hl
    obtain ⟨rfl, rfl⟩ := hl
    simp at hx
    subst hx
    exact hv
  | cons p rest ih =>
    obtain ⟨k1, vs⟩ := p
    intro hm k2 l hl x hx
    by_cases h1 : k1 = k
    · subst h1
      simp [insertReading] at hl
      rcases hl with ⟨hk2, hlv⟩ | hl
      · subst hlv
        rcases List.mem_append.mp hx with hx2 | hx2
        · exact hm _ vs (List.mem_cons_self _ _) x hx2
        · simp at hx2
          subst hx2
          exact hv
      · exact hm _ _ (List.mem_cons_of_mem _ hl) x hx
    · simp [insertReading, h1] at hl
      rcases hl with ⟨hk2, hlv⟩ | hl
      · subst hlv
        exact hm _ _ (List.mem_cons_self _ _) x hx
      · exact ih (fun k3 l3 h3 => hm k3 l3 (List.mem_cons_of_mem _ h3)) _ _ hl x hx

theorem foldl_insert_pred (P : TagReading → Prop) (f : Row → String)
    (g : Row → TagReading) (hg : ∀ r, P (g r)) :
    ∀ (rows : List Row) (m0 : List (String × List TagReading)),
      (∀ k l, (k, l) ∈ m0 → ∀ x ∈ l, P x) →
      ∀ k l, (k, l) ∈ rows.foldl (fun m r => insertReading m (f r) (g r)) m0 →
        ∀ x ∈ l, P x := by
  intro rows
  induction rows with
  | nil => intro m0 hm0 k l hl; exact hm0 k l hl
  | cons r rest ih =>
    intro m0 hm0 k l hl
    rw [List.foldl_cons] at hl
    exact ih (insertReading m0 (f r) (g r))
      (insertReading_pred P (f r) (g r) (hg r) m0 hm0) k l hl

theorem dictInsert_pred (P : TagReading → Prop) (k : String) (v : TagReading)
    (hv : P v) :
    ∀ (m : List (String × TagReading)),
      (∀ k2 x, (k2, x) ∈ m → P x) →
      ∀ k2 x, (k2, x) ∈ dictInsert m k v → P x := by
  intro m
  induction m with
  | nil =>
    intro _ k2 x hl
    simp [dictInsert] at hl
    obtain ⟨rfl, rfl⟩ := hl
    exact hv
  | cons p rest ih =>
    obtain ⟨k1, v1⟩ := p
    intro hm k2 x hl
    by_cases h1 : k1 = k
    · subst h1
      simp [dictInsert] at hl
      rcases hl with ⟨rfl, rfl⟩ | hl
      · exact hv
      · exact hm k2 x (List.mem_cons_of_mem _ hl)
    · simp [dictInsert, h1] at hl
      rcases hl with ⟨rfl, rfl⟩ | hl
      · exact hm k2 x (List.mem_cons_self _ _)
      · exact ih (fun k3 x3 h3 => hm k3 x3 (List.mem_cons_of_mem _ h3)) k2 x hl

theorem foldl_dictInsert_pred (P : TagReading → Prop) (f : Row → String)
    (g : Row → TagReading) (hg : ∀ r, P (g r)) :
    ∀ (rows : List Row) (m0 : List (String × TagReading)),
      (∀ k x, (k, x) ∈ m0 → P x) →
      ∀ k x, (k, x) ∈ rows.foldl (fun m r => dictInsert m (f r) (g r)) m0 → P x := by
  intro rows
  induction rows with
  | nil => intro m0 hm0 k x hl; exact hm0 k x hl
  | cons r rest ih =>
    intro m0 hm0 k x hl
    rw [List.foldl_cons] at hl
    exact ih (dictInsert m0 (f r) (g r))
      (dictInsert_pred P (f r) (g r) (hg r) m0 hm0) k x hl

/-- C6: every reading any of the five reading-returning operations hands
back carries a timestamp localized to the client's configured time zone
(raw row timestamps are naive; the result type `AwareDT` always carries
a zone, and it is always the client's). -/
theorem C6_timestamps_localized (h : Historian) (tag_id : String)
    (tag_ids : List String) (start_time end_time : NaiveDT) (esc b : Bool)
    (step_size : Int) (aggregate : String) (rows : List Row) :
    (∀ r, (h.get_current_tag_reading tag_id esc rows).2 = Except.ok (some r) →
      r.timestamp.tz = h.timezone)
    ∧ (∀ l r, (h.get_tag_readings tag_id start_time end_time esc rows).2 = Except.ok l →
      r ∈ l → r.timestamp.tz = h.timezone)
    ∧ (∀ m k r, (h.get_current_tags_readings tag_ids esc rows).2 = Except.ok m →
      (k, r) ∈ m → r.timestamp.tz = h.timezone)
    ∧ (∀ m k l r,
      (h.get_tags_readings tag_ids start_time end_time esc rows).2 = Except.ok m →
      (k, l) ∈ m → r ∈ l → r.timestamp.tz = h.timezone)
    ∧ (∀ m k l r,
      (h.get_tags_readings_interpolated tag_ids start_time end_time step_size
        aggregate esc b rows).2 = Except.ok m →
      (k, l) ∈ m → r ∈ l → r.timestamp.tz = h.timezone) := by
  refine ⟨?_, ?_, ?_, ?_, ?_⟩
  · intro r hr
    unfold Historian.get_current_tag_reading at hr
    cases hg : rows.getLast? with
    | none => simp [hg] at hr
    | some r0 =>
      simp [hg] at hr
      subst hr
      rfl
  · intro l r hl hr
    unfold Historian.get_tag_readings at hl
    split at hl
    · simp at hl
    · simp at hl
      subst hl
      obtain ⟨row, _, rfl⟩ := List.mem_map.mp hr
      rfl
  · intro m k r hm hkr
    have hm2 : rows.foldl
        (fun m r => dictInsert m (collapseSlashes r.tagname) (mkReading h.timezone r))
        [] = m := by
      unfold Historian.get_current_tags_readings at hm
      simpa using hm
    subst hm2
    exact foldl_dictInsert_pred (fun x => x.timestamp.tz = h.timezone)
      (fun r => collapseSlashes r.tagname) (mkReading h.timezone)
      (fun _ => rfl) rows [] (by simp) k r hkr
  · intro m k l r hm hkl hr
    have hm2 : rows.foldl
        (fun m r => insertReading m (collapseSlashes r.tagname) (mkReading h.timezone r))
        [] = m := by
      unfold Historian.get_tags_readings at hm
      simpa using hm
    subst hm2
    exact foldl_insert_pred (fun x => x.timestamp.tz = h.timezone)
      (fun r => collapseSlashes r.tagname) (mkReading h.timezone)
      (fun _ => rfl) rows [] (by simp) k l hkl r hr
  · intro m k l r hm hkl hr
    have hm2 : rows.foldl
        (fun m r => insertReading m (collapseSlashes r.tagname) (mkReadingTruncated h.timezone r))
        [] = m := by
      unfold Historian.get_tags_readings_interpolated at hm
      simpa using hm
    subst hm2
    exact foldl_insert_pred (fun x => x.timestamp.tz = h.timezone)
      (fun r => collapseSlashes r.tagname) (mkReadingTruncated h.timezone)
      (fun _ => rfl) rows [] (by simp) k l hkl r hr

theorem C6_timestamps_localized_witness :
    (mkReading "UTC" sampleRow).timestamp.tz = "UTC" :=
  (C6_timestamps_localized sampleHistorian "t" ["a/b"] dt1 dt2 true true 60
      "AVERAGE" [sampleRow]).2.1
    [mkReading "UTC" sampleRow] (mkReading "UTC" sampleRow) rfl
    (List.mem_singleton.mpr rfl)

/-- C8: every timestamp `get_tags_readings_interpolated` returns has its
microsecond component truncated to zero before localization. -/
theorem C8_interpolated_microseconds_zero (h : Historian) (tag_ids : List String)
    (start_time end_time : NaiveDT) (step_size : Int) (aggregate : String)
    (esc b : Bool) (rows : List Row) (m : List (String × List TagReading))
    (k : String) (l : List TagReading) (r : TagReading)
    (hm : (h.get_tags_readings_interpolated tag_ids start_time end_time step_size
      aggregate esc b rows).2 = Except.ok m)
    (hkl : (k, l) ∈ m) (hr : r ∈ l) :
    r.timestamp.naive.microsecond = 0 := by
  have hm2 : rows.foldl
      (fun m r => insertReading m (collapseSlashes r.tagname) (mkReadingTruncated h.timezone r))
      [] = m := by
    unfold Historian.get_tags_readings_interpolated at hm
    simpa using hm
  subst hm2
  exact foldl_insert_pred (fun x => x.timestamp.naive.microsecond = 0)
    (fun r => collapseSlashes r.tagname) (mkReadingTruncated h.timezone)
    (fun _ => rfl) rows [] (by simp) k l hkl r hr

theorem C8_interpolated_microseconds_zero_witness :
    (mkReadingTruncated "UTC" sampleRow).timestamp.naive.microsecond = 0 :=
  C8_interpolated_microseconds_zero sampleHistorian ["a/b"] dt1 dt2 60 "AVERAGE"
    true true [sampleRow]
    [(collapseSlashes "a//b", [mkReadingTruncated "UTC" sampleRow])]
    (collapseSlashes "a//b") [mkReadingTruncated "UTC" sampleRow]
    (mkReadingTruncated "UTC" sampleRow) rfl
    (List.mem_singleton.mpr rfl) (List.mem_singleton.mpr rfl)
